import Mathlib

/-!
Shallow embedding of the veo-batch repository and verification of its spec claims.

Embedded sources:
* `src/types.ts` — job and configuration records.
* `src/geminiService.ts` — the live remote-operation driver `generateVideo`
  (credential resolution, submission retry loop, polling loop, result
  extraction, authenticated download).  An older unused copy of the driver
  exists at `src/unnamed/part_001`; the application root component imports the
  named service, whose signature matches the call site, so the named file is
  the one embedded here.
* `src/unnamed/part_003` — the application root component's queue processor
  `processQueue`.

JavaScript strings are modelled as Lean `String` (a wrapper around
`List Char`); the numbers involved stay integral, so they are modelled as
`Nat`.  Network calls, timer waits and the abort signal are modelled by an
explicit environment: every suspension point consumes one logical time tick,
and the abort signal is a single optional abort time (`abortAt`), which makes
"aborted at time t" monotone by construction.
-/

namespace VeoBatch

/-- JS `String.prototype.includes`: substring test on the character list. -/
def strContains (s pat : String) : Bool :=
  (List.range (s.data.length + 1)).any
    (fun i => (s.data.drop i).take pat.data.length == pat.data)

/-- JS `String.prototype.trim`: drop whitespace from both ends. -/
def jsTrim (s : String) : String :=
  ⟨(((s.data.dropWhile Char.isWhitespace).reverse).dropWhile Char.isWhitespace).reverse⟩

/-- JS `s.startsWith(c)` for a one-character pattern. -/
def headIs (s : String) (c : Char) : Bool :=
  s.data.head? == some c

/-- JS `s.endsWith(c)` for a one-character pattern. -/
def lastIs (s : String) (c : Char) : Bool :=
  s.data.getLast? == some c

/-- JS `s.slice(1, -1)`. -/
def sliceInner (s : String) : String :=
  ⟨(s.data.drop 1).dropLast⟩

/-- The double-quote character. -/
def dquoteChar : Char := Char.ofNat 34

/-- The single-quote character. -/
def squoteChar : Char := Char.ofNat 39

/-! ## Data model (src/types.ts) -/

/-- `JobStatus` from types.ts. -/
inductive JobStatus where
  | pending
  | processing
  | completed
  | failed
deriving DecidableEq, Repr

/-- `VideoJob` from types.ts: the `File` object is opaque and modelled by a
numeric tag. -/
structure VideoJob where
  id : String
  file : Nat
  status : JobStatus
  progress : Option String
  videoUrl : Option String
  error : Option String
  thumbnailUrl : String
deriving DecidableEq, Repr

/-- `ProcessingConfig` from types.ts (the two enums are carried as their
literal strings). -/
structure ProcessingConfig where
  prompt : String
  resolution : String
  aspectRatio : String
deriving DecidableEq, Repr

/-- `VertexConfig` from types.ts. -/
structure VertexConfig where
  projectId : String
  location : String
  accessToken : String
deriving DecidableEq, Repr

/-! ## Key sanitization and prompt construction (geminiService.ts lines 36-44,
102-104) -/

/-- `sanitizeKey` (geminiService.ts lines 36-44): `undefined` and the empty
string are falsy and return `undefined`; otherwise trim, then strip one layer
of matching surrounding quotes. -/
def sanitizeKey : Option String → Option String
  | none => none
  | some key =>
    if key = "" then none
    else
      let k := jsTrim key
      if (headIs k dquoteChar && lastIs k dquoteChar)
          || (headIs k squoteChar && lastIs k squoteChar) then
        some (sliceInner k)
      else some k

/-- The verbatim silence clause appended to every prompt. -/
def silenceClause : String :=
  "(Video must be completely silent, no sound, no music, no audio track)"

/-- `finalPrompt` (geminiService.ts lines 102-104): an empty user prompt is
falsy, so the default base prompt is substituted; the silence clause is then
appended by the template literal. -/
def finalPrompt (prompt : String) : String :=
  (if prompt = "" then "Silent video, simple motion" else prompt)
    ++ ". (Video must be completely silent, no sound, no music, no audio track)"

/-! ## Errors -/

/-- A remote error object as inspected by the driver's catch blocks:
`status` and `code` properties, the `message` property, and the result of
`JSON.stringify(error)` (environment data, since serialization is outside the
model). -/
structure RemoteError where
  status : Option Nat
  code : Option Nat
  message : Option String
  serialized : String
deriving DecidableEq, Repr

/-- A thrown JavaScript value as the driver produces them: the
`DOMException('Aborted', 'AbortError')`, a `new Error(msg)`, or a rethrown
remote error object. -/
inductive JSError where
  | abortError
  | error (msg : String)
  | remote (e : RemoteError)
deriving DecidableEq, Repr

deriving instance DecidableEq for Except

/-- The `name` property of a thrown value. -/
def jsName : JSError → String
  | .abortError => "AbortError"
  | .error _ => "Error"
  | .remote _ => "Error"

/-- The `message` property of a thrown value. -/
def jsMessage : JSError → Option String
  | .abortError => some "Aborted"
  | .error m => some m
  | .remote e => e.message

/-- JS `error.message || dflt`: `undefined` and the empty string are falsy. -/
def messageOr (e : JSError) (dflt : String) : String :=
  match jsMessage e with
  | some m => if m = "" then dflt else m
  | none => dflt

/-! ## Credential resolution (geminiService.ts lines 24-33, 59-86) -/

/-- The two authentication modes the initialization logic can select. -/
inductive Credential where
  | vertex (projectId location accessToken : String)
  | direct (apiKey : String)
deriving DecidableEq, Repr

/-- geminiService.ts line 83. -/
def missingCredsMsg : String :=
  "Missing Credentials. Please set an API Key (AI Studio) or Project/Token (Vertex AI) in Settings."

/-- geminiService.ts line 65. -/
def missingLocationMsg : String :=
  "Vertex AI requires a Location (e.g., us-central1)."

/-- geminiService.ts lines 78 and 272: `customApiKey?.trim() || getEnvApiKey()`.
A supplied key that trims to the empty string is falsy, so the ambient
environment key is consulted instead. -/
def rawKeyOf (customApiKey envApiKey : Option String) : Option String :=
  match customApiKey with
  | some s => if jsTrim s = "" then envApiKey else some (jsTrim s)
  | none => envApiKey

/-- The AI-Studio branch of the initialization logic (geminiService.ts lines
76-85): resolve a raw key, sanitize it, and fail when the result is falsy. -/
def resolveDirect (customApiKey envApiKey : Option String) : Except JSError Credential :=
  match sanitizeKey (rawKeyOf customApiKey envApiKey) with
  | none => .error (.error missingCredsMsg)
  | some k => if k = "" then .error (.error missingCredsMsg) else .ok (.direct k)

/-- The initialization logic of `generateVideo` (geminiService.ts lines 59-86):
Vertex mode is chosen exactly when a config with truthy (non-empty) project id
and access token is supplied; the location is then required; otherwise the
AI-Studio key path runs.  Pure: no environment event is consumed. -/
def resolveCredential (customApiKey envApiKey : Option String)
    (vertexConfig : Option VertexConfig) : Except JSError Credential :=
  match vertexConfig with
  | some vc =>
    if vc.projectId ≠ "" ∧ vc.accessToken ≠ "" then
      if vc.location = "" then .error (.error missingLocationMsg)
      else .ok (.vertex vc.projectId vc.location (jsTrim vc.accessToken))
    else resolveDirect customApiKey envApiKey
  | none => resolveDirect customApiKey envApiKey

/-! ## Remote operation shape (the SDK result payloads, geminiService.ts
lines 94-243) -/

/-- The error payload of a completed operation. -/
structure OperationError where
  message : Option String
deriving DecidableEq, Repr

/-- A produced video reference: `{ video: { uri } }`. -/
structure VideoRef where
  uri : Option String
deriving DecidableEq, Repr

/-- One element of `generatedVideos`. -/
structure GeneratedVideo where
  video : Option VideoRef
deriving DecidableEq, Repr

/-- The response payload of a completed operation. -/
structure OperationResponse where
  raiMediaFilteredReasons : Option (List String)
  generatedVideos : Option (List GeneratedVideo)
deriving DecidableEq, Repr

/-- An operation snapshot as returned by the remote API. -/
structure Operation where
  name : Option String
  done : Bool
  error : Option OperationError
  response : Option OperationResponse
  result : Option OperationResponse
deriving DecidableEq, Repr

/-! ## Result extraction (geminiService.ts lines 226-243) -/

/-- geminiService.ts line 231: `updatedOperation.response || updatedOperation.result`. -/
def respOf (op : Operation) : Option OperationResponse :=
  match op.response with
  | some r => some r
  | none => op.result

/-- geminiService.ts lines 233-234: the first moderation-filter reason when the
list is present and non-empty. -/
def filteredReason (resp : Option OperationResponse) : Option String :=
  match resp with
  | some r =>
    match r.raiMediaFilteredReasons with
    | some (x :: _) => some x
    | _ => none
  | none => none

/-- geminiService.ts line 238: `operationResponse?.generatedVideos?.[0]?.video?.uri`. -/
def dLink (resp : Option OperationResponse) : Option String :=
  (((resp.bind (fun r => r.generatedVideos)).bind List.head?).bind
    (fun g => g.video)).bind (fun v => v.uri)

/-- geminiService.ts line 227. -/
def genericOpErrorMsg : String := "Unknown error during video generation"

/-- geminiService.ts line 242. -/
def noUriMsg : String := "No video URI returned. Check console for operation details."

/-- Phase C, result extraction (geminiService.ts lines 226-243): error payload
first, then moderation filter reasons, then the first produced video's
locator; a missing (or falsy empty) locator fails. -/
def extractResult (op : Operation) : Except JSError String :=
  match op.error with
  | some e =>
    .error (.error (match e.message with
      | some m => if m = "" then genericOpErrorMsg else m
      | none => genericOpErrorMsg))
  | none =>
    let resp := respOf op
    match filteredReason resp with
    | some reason => .error (.error ("Content blocked by safety filter: " ++ reason))
    | none =>
      match dLink resp with
      | some link =>
        if link = "" then .error (.error noUriMsg) else .ok link
      | none => .error (.error noUriMsg)

/-! ## Driver environment

Every suspension point — a network call, a timer wait, the download fetch —
consumes one logical time tick.  The abort signal is modelled by its abort
time: `aborted` at tick `t` iff `abortAt = some a` with `a ≤ t`, which is
monotone by construction (an aborted signal stays aborted).  A wait started at
tick `t` is modelled as rejecting with `AbortError` iff the signal is aborted
by the next tick, which covers both an already-aborted signal and an abort
arriving during the wait. -/

/-- The outcome of one submission call (`ai.models.generateVideos`). -/
inductive SubmitResult where
  | success (op : Operation)
  | failure (e : RemoteError)
deriving DecidableEq, Repr

/-- The outcome of one status refresh (`ai.operations.getVideosOperation`). -/
inductive PollResult where
  | success (op : Operation)
  | failure (e : RemoteError)
deriving DecidableEq, Repr

/-- A parsed URL as used by the download phase: the part before the query
string, plus the search parameters. -/
structure URLm where
  base : String
  params : List (String × String)
deriving DecidableEq, Repr

/-- A fetch response: `ok` flag, `statusText`, and the body blob (opaque tag). -/
structure FetchResult where
  ok : Bool
  statusText : String
  blob : Nat
deriving DecidableEq, Repr

/-- The environment a driver run interacts with. -/
structure Env where
  abortAt : Option Nat
  submitRes : Nat → SubmitResult
  pollRes : List PollResult
  urlParse : Except String URLm
  fetchRes : FetchResult
  envApiKey : Option String

/-- Whether the abort signal is set at logical time `t`. -/
def envAborted (env : Env) (t : Nat) : Bool :=
  match env.abortAt with
  | some a => decide (a ≤ t)
  | none => false

/-! ## Submission retry loop (geminiService.ts lines 96-160) -/

/-- geminiService.ts line 99. -/
def MAX_START_RETRIES : Nat := 50

/-- geminiService.ts line 145. -/
def retriesExhaustedMsg : String :=
  "Rate limit or server capacity exhausted after multiple retries. Please try again later."

/-- The submission-failure rate-limit classifier (geminiService.ts lines
133-138). -/
def isStartRateLimit (e : RemoteError) : Bool :=
  e.status == some 429 || e.code == some 429 || strContains e.serialized "429"
    || strContains e.serialized "RESOURCE_EXHAUSTED" || strContains e.serialized "quota"

/-- The transient-server classifier (geminiService.ts line 140). -/
def isStartTransient (e : RemoteError) : Bool :=
  e.status == some 503 || e.status == some 500

/-- JS `error.message || dflt` on a remote error object. -/
def remoteMsgOr (e : RemoteError) (dflt : String) : String :=
  match e.message with
  | some m => if m = "" then dflt else m
  | none => dflt

/-- The outcome of the submission retry loop: the result, the number of
submission calls made, the backoff waits performed (in ms, in order), and the
final logical time. -/
structure StartOut where
  result : Except JSError Operation
  submitsMade : Nat
  waits : List Nat
  tEnd : Nat
deriving DecidableEq, Repr

/-- The submission retry loop (geminiService.ts lines 106-160).  The loop's own
attempt cap bounds it to at most `MAX_START_RETRIES + 1` iterations, so the
remaining retry budget serves as structurally decreasing fuel; the fuel-zero
arm is unreachable from `startLoop` (there `fuel + attempt = 51` is invariant
and the loop returns before `attempt` exceeds 50).  The JS float expression
`Math.min(startBackoff * 1.5, 120000)` only ever sees even integers starting
from 20000, so `b * 3 / 2` on `Nat` computes the same values. -/
def startLoopAux (env : Env) :
    Nat → Nat → Nat → Nat → Nat → List Nat → StartOut
  | 0, t, _, _, submitsMade, waits =>
    ⟨.error (.error retriesExhaustedMsg), submitsMade, waits, t⟩
  | fuel + 1, t, attempt, backoff, submitsMade, waits =>
    if envAborted env t then ⟨.error .abortError, submitsMade, waits, t⟩
    else
      match env.submitRes submitsMade with
      | .success op => ⟨.ok op, submitsMade + 1, waits, t + 1⟩
      | .failure e =>
        if envAborted env (t + 1) then
          ⟨.error .abortError, submitsMade + 1, waits, t + 1⟩
        else if isStartRateLimit e || isStartTransient e then
          if attempt + 1 > MAX_START_RETRIES then
            ⟨.error (.error retriesExhaustedMsg), submitsMade + 1, waits, t + 1⟩
          else if envAborted env (t + 2) then
            ⟨.error .abortError, submitsMade + 1, waits ++ [backoff], t + 2⟩
          else
            startLoopAux env fuel (t + 2) (attempt + 1)
              (min (backoff * 3 / 2) 120000) (submitsMade + 1) (waits ++ [backoff])
        else
          ⟨.error (.error (remoteMsgOr e "Failed to start generation")),
            submitsMade + 1, waits, t + 1⟩

/-- The submission retry loop entered with the source's initial state:
attempt counter 0, backoff 20000 ms. -/
def startLoop (env : Env) (t : Nat) : StartOut :=
  startLoopAux env (MAX_START_RETRIES + 1) t 0 20000 0 []

/-! ## Polling loop (geminiService.ts lines 168-224) -/

/-- geminiService.ts line 173. -/
def MAX_POLLING_RETRIES : Nat := 120

/-- geminiService.ts line 211. -/
def pollTimeoutMsg : String :=
  "Operation timed out: Resource not found after multiple retries."

/-- The polling not-found classifier (geminiService.ts lines 194-199). -/
def isPollNotFound (e : RemoteError) : Bool :=
  strContains e.serialized "404" || strContains e.serialized "NOT_FOUND"
    || strContains e.serialized "Requested entity was not found"
    || e.status == some 404 || e.code == some 404

/-- The polling rate-limit classifier (geminiService.ts lines 201-205); note
that unlike the submission classifier it does not look for "quota". -/
def isPollRateLimit (e : RemoteError) : Bool :=
  e.status == some 429 || e.code == some 429 || strContains e.serialized "429"
    || strContains e.serialized "RESOURCE_EXHAUSTED"

/-- The outcome of the polling loop: `result = none` models a run that would
keep polling beyond the environment's supplied poll results. -/
structure PollOut where
  result : Option (Except JSError Operation)
  pollsMade : Nat
  waits : List Nat
  tEnd : Nat
deriving DecidableEq, Repr

/-- The polling loop (geminiService.ts lines 178-224).  Each iteration waits
10 s, performs one status refresh (consuming one environment poll result), and
classifies a failure as not-found (separate capped counter), rate-limited
(extra fixed 20 s wait), or fatal.  A successful refresh replaces the
operation snapshot and resets the not-found counter. -/
def pollLoopAux (env : Env) :
    List PollResult → Operation → Nat → Nat → Nat → List Nat → PollOut
  | rem, op, retryCount, t, pollsMade, waits =>
    if op.done then ⟨some (.ok op), pollsMade, waits, t⟩
    else if envAborted env t then ⟨some (.error .abortError), pollsMade, waits, t⟩
    else if envAborted env (t + 1) then
      ⟨some (.error .abortError), pollsMade, waits ++ [10000], t + 1⟩
    else
      match rem with
      | [] => ⟨none, pollsMade, waits ++ [10000], t + 1⟩
      | .success opNew :: rs =>
        pollLoopAux env rs opNew 0 (t + 2) (pollsMade + 1) (waits ++ [10000])
      | .failure e :: rs =>
        if envAborted env (t + 2) then
          ⟨some (.error .abortError), pollsMade + 1, waits ++ [10000], t + 2⟩
        else if isPollNotFound e then
          if retryCount + 1 ≥ MAX_POLLING_RETRIES then
            ⟨some (.error (.error pollTimeoutMsg)), pollsMade + 1, waits ++ [10000], t + 2⟩
          else
            pollLoopAux env rs op (retryCount + 1) (t + 2) (pollsMade + 1) (waits ++ [10000])
        else if isPollRateLimit e then
          if envAborted env (t + 3) then
            ⟨some (.error .abortError), pollsMade + 1, waits ++ [10000, 20000], t + 3⟩
          else
            pollLoopAux env rs op retryCount (t + 3) (pollsMade + 1) (waits ++ [10000, 20000])
        else
          ⟨some (.error (.remote e)), pollsMade + 1, waits ++ [10000], t + 2⟩

/-! ## Download phase (geminiService.ts lines 245-291) -/

/-- A fetch performed by the download phase: the URL string, the value of an
`Authorization` header when one is attached, and whether the request carries
`credentials: 'omit'`. -/
structure FetchCall where
  url : String
  authBearer : Option String
  omitCredentials : Bool
deriving DecidableEq, Repr

/-- Render a search-parameter list as a query string. -/
def renderParams : List (String × String) → String
  | [] => ""
  | [(k, v)] => k ++ "=" ++ v
  | (k, v) :: p :: ps => k ++ "=" ++ v ++ "&" ++ renderParams (p :: ps)

/-- JS `url.toString()` on the model URL. -/
def renderURL (u : URLm) : String :=
  if u.params.isEmpty then u.base else u.base ++ "?" ++ renderParams u.params

/-- JS `URLSearchParams.set`: replace the first binding of the name, drop any
duplicates, or append when absent. -/
def setParam : List (String × String) → String → String → List (String × String)
  | [], key, v => [(key, v)]
  | p :: ps, key, v =>
    if p.1 = key then (key, v) :: ps.filter (fun q => q.1 != key)
    else p :: setParam ps key v

/-- The download phase (geminiService.ts lines 245-291).  The whole phase sits
in a try/catch that rethrows every failure — a URL-parse failure, a fetch
rejection (including the `AbortError` of a cancelled fetch), or a non-ok
response — as `new Error("Video download error: " + err.message)`.  Vertex
mode attaches the trimmed access token as a bearer header and never touches
the URL; AI-Studio mode re-resolves and sanitizes the key and, when truthy,
sets it as the `key` query parameter, fetching with `credentials: 'omit'`.
The live file has no string-concatenation fallback: when `new URL` throws,
the catch wraps the parse error and no fetch happens. -/
def downloadPhase (usingVertex : Bool) (vertexAccessToken : Option String)
    (customApiKey envApiKey : Option String)
    (urlParse : Except String URLm) (abortedAtFetch : Bool) (resp : FetchResult) :
    Except JSError Nat × List FetchCall :=
  match urlParse with
  | .error m => (.error (.error ("Video download error: " ++ m)), [])
  | .ok u =>
    if usingVertex then
      let header := match vertexAccessToken with
        | some tk => "Bearer " ++ jsTrim tk
        | none => "Bearer undefined"
      let call : FetchCall := ⟨renderURL u, some header, false⟩
      if abortedAtFetch then
        (.error (.error "Video download error: Aborted"), [call])
      else if resp.ok then (.ok resp.blob, [call])
      else
        (.error (.error ("Video download error: Download failed: " ++ resp.statusText)), [call])
    else
      let apiKey := sanitizeKey (rawKeyOf customApiKey envApiKey)
      let u2 := match apiKey with
        | some k =>
          if k = "" then u else { u with params := setParam u.params "key" k }
        | none => u
      let call : FetchCall := ⟨renderURL u2, none, true⟩
      if abortedAtFetch then
        (.error (.error "Video download error: Aborted"), [call])
      else if resp.ok then (.ok resp.blob, [call])
      else
        (.error (.error ("Video download error: Download failed: " ++ resp.statusText)), [call])

/-! ## The full driver (geminiService.ts `generateVideo`) -/

/-- geminiService.ts line 163. -/
def noOpNameMsg : String :=
  "Failed to start video generation: No operation name returned."

/-- The observable interaction record of one driver run. -/
structure Trace where
  submits : Nat
  polls : Nat
  waits : List Nat
  fetches : List FetchCall
deriving DecidableEq, Repr

/-- A driver run either settles (resolves or rejects) or outruns the supplied
environment poll results. -/
inductive DriverOut where
  | done (r : Except JSError Nat) (tr : Trace)
  | outOfEnv (tr : Trace)
deriving DecidableEq, Repr

/-- The inputs of one `generateVideo` call.  The image payload only flows into
the submission request, which the environment answers wholesale, so it is not
carried. -/
structure GenInput where
  cfg : ProcessingConfig
  customApiKey : Option String
  vertexConfig : Option VertexConfig

/-- The full driver `generateVideo` (geminiService.ts lines 46-291): abort
check, credential resolution (pure, before any network call), submission
retry loop, operation-handle check, initial 10 s propagation wait, polling
loop, result extraction, download. -/
def generateVideoM (inp : GenInput) (env : Env) : DriverOut :=
  if envAborted env 0 then .done (.error .abortError) ⟨0, 0, [], []⟩
  else
    match resolveCredential inp.customApiKey env.envApiKey inp.vertexConfig with
    | .error e => .done (.error e) ⟨0, 0, [], []⟩
    | .ok cred =>
      let so := startLoop env 0
      match so.result with
      | .error e => .done (.error e) ⟨so.submitsMade, 0, so.waits, []⟩
      | .ok op =>
        match op.name with
        | none => .done (.error (.error noOpNameMsg)) ⟨so.submitsMade, 0, so.waits, []⟩
        | some nm =>
          if nm = "" then .done (.error (.error noOpNameMsg)) ⟨so.submitsMade, 0, so.waits, []⟩
          else if envAborted env (so.tEnd + 1) then
            .done (.error .abortError) ⟨so.submitsMade, 0, so.waits ++ [10000], []⟩
          else
            let po := pollLoopAux env env.pollRes op 0 (so.tEnd + 1) 0 []
            let waits := so.waits ++ 10000 :: po.waits
            match po.result with
            | none => .outOfEnv ⟨so.submitsMade, po.pollsMade, waits, []⟩
            | some (.error e) =>
              .done (.error e) ⟨so.submitsMade, po.pollsMade, waits, []⟩
            | some (.ok fin) =>
              match extractResult fin with
              | .error e => .done (.error e) ⟨so.submitsMade, po.pollsMade, waits, []⟩
              | .ok _link =>
                let usingVertex := match cred with
                  | .vertex _ _ _ => true
                  | .direct _ => false
                let tok := match inp.vertexConfig with
                  | some vc => some vc.accessToken
                  | none => none
                let dl := downloadPhase usingVertex tok inp.customApiKey env.envApiKey
                  env.urlParse (envAborted env (po.tEnd + 1)) env.fetchRes
                .done dl.1 ⟨so.submitsMade, po.pollsMade, waits, dl.2⟩

/-! ## Queue processor (src/unnamed/part_003, `processQueue`, lines 67-130)

The queue processor snapshots the pending jobs, then drives them strictly
sequentially.  Each `setJobs` call is an atomic read-modify-write over the
whole job list; the model records the job list after every such call.  The
outcome each `generateVideo` call settles with, the progress strings it
reports, and whether the batch's abort signal is set when it settles, are the
per-job environment (`JobRun`). -/

/-- The environment of one `generateVideo` invocation as the queue processor
observes it: the progress callbacks fired, the settled outcome (a video URL on
success, a thrown value on failure), and whether the controller's signal is
aborted when the iteration finishes. -/
structure JobRun where
  progressUpdates : List String
  result : Except JSError String
  abortedAfter : Bool

/-- The cancellation test of the catch block (part_003 line 107):
`error.name === 'AbortError' || error.message === 'Aborted'`. -/
def isAbortShape (e : JSError) : Bool :=
  jsName e == "AbortError" || jsMessage e == some "Aborted"

/-- part_003 line 83: mark the job as processing. -/
def toProcessing (jid : String) (jobs : List VideoJob) : List VideoJob :=
  jobs.map (fun j =>
    if j.id = jid then { j with status := .processing, progress := some "Starting..." } else j)

/-- part_003 line 90: the progress callback forwarded into the job record. -/
def setProgress (jid : String) (p : String) (jobs : List VideoJob) : List VideoJob :=
  jobs.map (fun j => if j.id = jid then { j with progress := some p } else j)

/-- part_003 lines 99-104: mark the job completed with its result. -/
def toCompleted (jid : String) (url : String) (jobs : List VideoJob) : List VideoJob :=
  jobs.map (fun j =>
    if j.id = jid then
      { j with status := .completed, videoUrl := some url, progress := some "Done" }
    else j)

/-- part_003 line 124: mark the job failed with the failure's message. -/
def toFailedMsg (jid : String) (msg : String) (jobs : List VideoJob) : List VideoJob :=
  jobs.map (fun j =>
    if j.id = jid then { j with status := .failed, error := some msg } else j)

/-- part_003 lines 109-115: on a cancellation-shaped failure, fail the current
job with "Cancelled" and every other still-pending job with
"Stopped by user". -/
def cancelJobs (jid : String) (jobs : List VideoJob) : List VideoJob :=
  jobs.map (fun j =>
    if j.id = jid then { j with status := .failed, error := some "Cancelled" }
    else if j.status = .pending then { j with status := .failed, error := some "Stopped by user" }
    else j)

/-- part_003 line 76: the ids of the pending jobs, in list (enqueue) order. -/
def pendingIds (jobs : List VideoJob) : List String :=
  (jobs.filter (fun j => j.status == .pending)).map (fun j => j.id)

/-- The observable record of one queue pass: the job-list snapshot after every
`setJobs` call, and the ids transitioned to processing, in order. -/
structure PassOut where
  states : List (List VideoJob)
  started : List String

/-- The job-list snapshots produced by the progress callbacks of one job. -/
def progressStates (jid : String) : List String → List VideoJob → List (List VideoJob)
  | [], _ => []
  | p :: ps, s => setProgress jid p s :: progressStates jid ps (setProgress jid p s)

/-- The driving loop of `processQueue` (part_003 lines 79-126): for each
pending job in order — break if the signal is already aborted; mark it
processing; forward its progress updates; then either complete it, run the
cancellation branch and stop, or fail it and continue.  An exhausted `runs`
list models an environment that supplies no further outcomes. -/
def processPassAux : List VideoJob → List String → List JobRun → Bool → PassOut
  | _, [], _, _ => ⟨[], []⟩
  | jobs, jid :: rest, runs, ab =>
    if ab then ⟨[], []⟩
    else
      match runs with
      | [] => ⟨[], []⟩
      | run :: runs2 =>
        let s1 := toProcessing jid jobs
        let ss := progressStates jid run.progressUpdates s1
        let s2 := ss.getLastD s1
        match run.result with
        | .ok url =>
          let s3 := toCompleted jid url s2
          let tail := processPassAux s3 rest runs2 run.abortedAfter
          ⟨s1 :: ss ++ s3 :: tail.states, jid :: tail.started⟩
        | .error e =>
          if isAbortShape e then ⟨s1 :: ss ++ [cancelJobs jid s2], [jid]⟩
          else
            let s3 := toFailedMsg jid (messageOr e "Failed") s2
            let tail := processPassAux s3 rest runs2 run.abortedAfter
            ⟨s1 :: ss ++ s3 :: tail.states, jid :: tail.started⟩

/-- All job-list states of one queue pass, the initial state included. -/
def passStates (jobs : List VideoJob) (runs : List JobRun) : List (List VideoJob) :=
  jobs :: (processPassAux jobs (pendingIds jobs) runs false).states

/-- The ids transitioned to processing during one queue pass, in order. -/
def passStarted (jobs : List VideoJob) (runs : List JobRun) : List String :=
  (processPassAux jobs (pendingIds jobs) runs false).started

/-- The job list when the pass finishes. -/
def finalState (jobs : List VideoJob) (runs : List JobRun) : List VideoJob :=
  (passStates jobs runs).getLastD []

/-! ## Claim-side transition relations -/

/-- The status transitions exactly as claim C5 states them: along
`Pending → Processing → (Completed | Failed)`, never skipping `Processing`,
never re-entering `Pending`. -/
def specStepOKB : JobStatus → JobStatus → Bool
  | a, b =>
    a == b || (a == .pending && b == .processing)
      || (a == .processing && b == .completed) || (a == .processing && b == .failed)

/-- The transitions the code actually takes: the claimed edges plus the direct
`Pending → Failed` edge that the cancellation branch applies to still-pending
jobs. -/
def stepOKB : JobStatus → JobStatus → Bool
  | a, b =>
    a == b || (a == .pending && b == .processing)
      || (a == .processing && b == .completed) || (a == .processing && b == .failed)
      || (a == .pending && b == .failed)

/-- One observed step preserves the job list elementwise (same ids, in place)
and moves each job's status along `ok`. -/
def pairStepB (ok : JobStatus → JobStatus → Bool) (s s2 : List VideoJob) : Bool :=
  s.length == s2.length
    && (List.zip s s2).all (fun p => p.1.id == p.2.id && ok p.1.status p.2.status)

/-- Every adjacent pair of states in the list is a `pairStepB ok` step. -/
def chainStepB (ok : JobStatus → JobStatus → Bool) : List (List VideoJob) → Bool
  | [] => true
  | [_] => true
  | s :: s2 :: rest => pairStepB ok s s2 && chainStepB ok (s2 :: rest)

/-- The number of jobs with status `Processing`. -/
def processingCount (s : List VideoJob) : Nat :=
  s.countP (fun j => j.status == .processing)

/-! ## Supporting lemmas for trimming and quote stripping -/

lemma dropWhile_append_all (p : Char → Bool) (l1 l2 : List Char)
    (h : ∀ c ∈ l1, p c = true) : (l1 ++ l2).dropWhile p = l2.dropWhile p := by
  induction l1 with
  | nil => rfl
  | cons c cs ih =>
    rw [List.cons_append, List.dropWhile_cons, if_pos (h c (by simp))]
    exact ih (fun d hd => h d (by simp [hd]))

lemma dropWhile_cons_stop (p : Char → Bool) (c : Char) (l : List Char)
    (h : p c = false) : (c :: l).dropWhile p = c :: l := by
  rw [List.dropWhile_cons, if_neg (by simp [h])]

lemma jsTrim_wrap (q : Char) (hq : q.isWhitespace = false) (t ws1 ws2 : List Char)
    (h1 : ∀ c ∈ ws1, c.isWhitespace = true) (h2 : ∀ c ∈ ws2, c.isWhitespace = true) :
    jsTrim ⟨ws1 ++ q :: (t ++ q :: ws2)⟩ = ⟨q :: (t ++ [q])⟩ := by
  unfold jsTrim
  apply congrArg String.mk
  rw [show (String.mk (ws1 ++ q :: (t ++ q :: ws2))).data = ws1 ++ q :: (t ++ q :: ws2) from rfl]
  rw [dropWhile_append_all _ _ _ h1, dropWhile_cons_stop _ _ _ hq]
  have hrev : (q :: (t ++ q :: ws2)).reverse = ws2.reverse ++ q :: (t.reverse ++ [q]) := by
    simp [List.reverse_cons, List.reverse_append, List.append_assoc]
  rw [hrev, dropWhile_append_all _ _ _ (fun c hc => h2 c (List.mem_reverse.mp hc)),
    dropWhile_cons_stop _ _ _ hq]
  simp [List.reverse_cons, List.reverse_append]

lemma string_ne_empty_of_data (l : List Char) (hl : l ≠ []) : (⟨l⟩ : String) ≠ "" := by
  intro h
  exact hl (congrArg String.data h)

/-- Claim C10 — key sanitization round-trips a quoted token.

Part 1: for every token `t` that does not itself carry the surrounding quote
on both ends, sanitizing the string built as whitespace, a quote `q` (double
or single), `t`, the matching quote and trailing whitespace returns exactly
`t`, internal whitespace preserved.  Part 2: when the trimmed string does not
carry matching surrounding quotes, sanitization returns just the trimmed
string — unmatched or absent quotes are left in place. -/
theorem c10_sanitize_roundtrip (t ws1 ws2 : String) (q : Char)
    (hq : q = dquoteChar ∨ q = squoteChar)
    (h1 : ∀ c ∈ ws1.data, c.isWhitespace = true)
    (h2 : ∀ c ∈ ws2.data, c.isWhitespace = true)
    (hnq : ¬(headIs t q = true ∧ lastIs t q = true)) :
    sanitizeKey (some ⟨ws1.data ++ q :: (t.data ++ q :: ws2.data)⟩) = some t
    ∧ ∀ s : String, s ≠ "" →
        (headIs (jsTrim s) dquoteChar && lastIs (jsTrim s) dquoteChar) = false →
        (headIs (jsTrim s) squoteChar && lastIs (jsTrim s) squoteChar) = false →
        sanitizeKey (some s) = some (jsTrim s) := by
  have hqws : q.isWhitespace = false := by
    rcases hq with h | h <;> rw [h] <;> decide
  constructor
  · have hne : (⟨ws1.data ++ q :: (t.data ++ q :: ws2.data)⟩ : String) ≠ "" :=
      string_ne_empty_of_data _ (by simp)
    have htrim := jsTrim_wrap q hqws t.data ws1.data ws2.data h1 h2
    have hhead : (⟨q :: (t.data ++ [q])⟩ : String).data.head? = some q := rfl
    have hlast : (⟨q :: (t.data ++ [q])⟩ : String).data.getLast? = some q := by
      rw [show (⟨q :: (t.data ++ [q])⟩ : String).data = (q :: t.data) ++ [q] from by simp,
        List.getLast?_concat]
    have hinner : sliceInner ⟨q :: (t.data ++ [q])⟩ = t := by
      unfold sliceInner
      rw [show ((⟨q :: (t.data ++ [q])⟩ : String).data.drop 1) = t.data ++ [q] from rfl,
        List.dropLast_concat]
    have hcond :
        ((headIs ⟨q :: (t.data ++ [q])⟩ dquoteChar && lastIs ⟨q :: (t.data ++ [q])⟩ dquoteChar)
          || (headIs ⟨q :: (t.data ++ [q])⟩ squoteChar
              && lastIs ⟨q :: (t.data ++ [q])⟩ squoteChar)) = true := by
      unfold headIs lastIs
      rw [hhead, hlast]
      rcases hq with h | h <;> rw [h] <;> decide
    simp only [sanitizeKey]
    rw [if_neg hne, htrim, if_pos hcond, hinner]
  · intro s hs hd hsq
    simp only [sanitizeKey]
    rw [if_neg hs, if_neg (by rw [hd, hsq]; simp)]

/-- Claim C9 — the silence clause is appended to every submitted prompt: every
final prompt ends with the verbatim clause; a non-empty user prompt is kept
and suffixed with the clause; an empty user prompt is first replaced by the
default base prompt. -/
theorem c9_silence_clause_always_appended :
    (∀ p : String, ∃ pre : String, finalPrompt p = pre ++ silenceClause)
    ∧ (∀ p : String, p ≠ "" → finalPrompt p = p ++ ". " ++ silenceClause)
    ∧ finalPrompt "" = "Silent video, simple motion" ++ ". " ++ silenceClause := by
  have hlit :
      ". (Video must be completely silent, no sound, no music, no audio track)"
        = ". " ++ silenceClause := by decide
  refine ⟨fun p => ?_, fun p hp => ?_, ?_⟩
  · refine ⟨(if p = "" then "Silent video, simple motion" else p) ++ ". ", ?_⟩
    rw [finalPrompt, hlit, String.append_assoc]
  · rw [finalPrompt, if_neg hp, hlit, String.append_assoc]
  · rw [finalPrompt, if_pos rfl, hlit, String.append_assoc]

/-- Witness for C10 at a concrete quoted token with internal whitespace. -/
theorem c10_sanitize_roundtrip_witness :
    sanitizeKey (some ⟨(" ").data ++ dquoteChar :: (("my key").data ++ dquoteChar :: ("  ").data)⟩)
      = some "my key" :=
  (c10_sanitize_roundtrip "my key" " " "  " dquoteChar (Or.inl rfl) (by decide) (by decide)
    (by decide)).1

/-- Witness for C9 at a concrete non-empty prompt. -/
theorem c9_silence_clause_witness :
    finalPrompt "A cat" = "A cat" ++ ". " ++ silenceClause :=
  c9_silence_clause_always_appended.2.1 "A cat" (by decide)

/-! ## Claim C6 — result-extraction order -/

/-- Claim C6 — result extraction for a completed operation proceeds in order:
an error payload wins and its message (or the generic message when the payload
message is absent or empty) is surfaced; otherwise a non-empty
moderation-filter-reasons list wins with its first reason — with no hypothesis
on `generatedVideos`, so this holds even when a video locator is also present;
otherwise the first produced video's locator is returned, and a missing (or
falsy empty) locator fails with the no-locator message. -/
theorem c6_extraction_order :
    (∀ (op : Operation) (e : OperationError) (m : String),
      op.error = some e → e.message = some m → m ≠ "" →
      extractResult op = .error (.error m))
    ∧ (∀ (op : Operation) (e : OperationError),
      op.error = some e → (e.message = none ∨ e.message = some "") →
      extractResult op = .error (.error genericOpErrorMsg))
    ∧ (∀ (op : Operation) (r : OperationResponse) (reason : String) (rest : List String),
      op.error = none → respOf op = some r →
      r.raiMediaFilteredReasons = some (reason :: rest) →
      extractResult op = .error (.error ("Content blocked by safety filter: " ++ reason)))
    ∧ (∀ (op : Operation) (u : String),
      op.error = none → filteredReason (respOf op) = none →
      dLink (respOf op) = some u → u ≠ "" →
      extractResult op = .ok u)
    ∧ (∀ op : Operation,
      op.error = none → filteredReason (respOf op) = none →
      (dLink (respOf op) = none ∨ dLink (respOf op) = some "") →
      extractResult op = .error (.error noUriMsg)) := by
  refine ⟨?_, ?_, ?_, ?_, ?_⟩
  · intro op e m herr hmsg hne
    simp [extractResult, herr, hmsg, hne]
  · intro op e herr hmsg
    rcases hmsg with h | h <;> simp [extractResult, herr, h]
  · intro op r reason rest herr hresp hrai
    simp [extractResult, herr, filteredReason, hresp, hrai]
  · intro op u herr hfilt hlink hne
    simp [extractResult, herr, hfilt, hlink, hne]
  · intro op herr hfilt hlink
    rcases hlink with h | h <;> simp [extractResult, herr, hfilt, h]

/-- Witness for C6: a completed operation whose response carries both a
moderation-filter reason and a video locator fails with the first reason. -/
theorem c6_extraction_order_witness :
    extractResult ⟨some "op1", true, none,
        some ⟨some ["violence"], some [⟨some ⟨some "https://dl/x"⟩⟩]⟩, none⟩
      = .error (.error ("Content blocked by safety filter: " ++ "violence")) :=
  c6_extraction_order.2.2.1 _ ⟨some ["violence"], some [⟨some ⟨some "https://dl/x"⟩⟩]⟩
    "violence" [] rfl rfl rfl

/-! ## Claim C7 — credential resolution -/

/-- Claim C7 — credential resolution: (1) the Delegated (Vertex) mode is
chosen exactly when the supplied delegated config has a non-empty project id
and a non-empty access token, and an empty location then fails with the
missing-location error; (2) in every other case the direct-key path runs,
resolving the explicit key (when its trim is non-empty) else the ambient
environment key, sanitizing it, and failing with the missing-credentials
error exactly when the sanitized result is absent or empty; (3) all of this
happens before any network call: an initialization failure leaves the driver
with zero submissions, zero polls, no waits and no fetches. -/
theorem c7_credential_resolution :
    (∀ (key env : Option String) (vc : VertexConfig),
      vc.projectId ≠ "" → vc.accessToken ≠ "" →
      resolveCredential key env (some vc) =
        (if vc.location = "" then .error (.error missingLocationMsg)
         else .ok (.vertex vc.projectId vc.location (jsTrim vc.accessToken))))
    ∧ (∀ (key env : Option String) (vc : VertexConfig),
      vc.projectId = "" ∨ vc.accessToken = "" →
      resolveCredential key env (some vc) = resolveDirect key env)
    ∧ (∀ key env : Option String,
      resolveCredential key env none = resolveDirect key env)
    ∧ (∀ key env : Option String,
      resolveDirect key env = .error (.error missingCredsMsg)
        ↔ (sanitizeKey (rawKeyOf key env)).getD "" = "")
    ∧ (∀ (key env : Option String) (k : String),
      sanitizeKey (rawKeyOf key env) = some k → k ≠ "" →
      resolveDirect key env = .ok (.direct k))
    ∧ (∀ (inp : GenInput) (env : Env) (e : JSError),
      envAborted env 0 = false →
      resolveCredential inp.customApiKey env.envApiKey inp.vertexConfig = .error e →
      generateVideoM inp env = .done (.error e) ⟨0, 0, [], []⟩) := by
  refine ⟨?_, ?_, ?_, ?_, ?_, ?_⟩
  · intro key env vc h1 h2
    simp [resolveCredential, h1, h2]
  · intro key env vc h
    have : ¬(vc.projectId ≠ "" ∧ vc.accessToken ≠ "") := by
      rcases h with h | h <;> simp [h]
    simp [resolveCredential, this]
  · intro key env
    simp [resolveCredential]
  · intro key env
    unfold resolveDirect
    cases hs : sanitizeKey (rawKeyOf key env) with
    | none => simp
    | some k =>
      by_cases hk : k = "" <;> simp [hk]
  · intro key env k hs hk
    simp [resolveDirect, hs, hk]
  · intro inp env e hab hres
    simp [generateVideoM, hab, hres]

/-- Witness for C7: a delegated config with a project id and token but an
empty location fails with the missing-location error; a key that sanitizes to
empty fails with the missing-credentials error. -/
theorem c7_credential_resolution_witness :
    resolveCredential (some "ignored") none (some ⟨"proj", "", "tok"⟩)
        = .error (.error missingLocationMsg)
    ∧ resolveDirect none (some "  ") = .error (.error missingCredsMsg) := by
  constructor
  · have h := c7_credential_resolution.1 (some "ignored") none ⟨"proj", "", "tok"⟩
      (by decide) (by decide)
    rw [h]
    rfl
  · exact (c7_credential_resolution.2.2.2.1 none (some "  ")).mpr (by decide)

/-! ## Claims C2 and C4 — submission retry cap and backoff sequence -/

lemma envAborted_none (env : Env) (h : env.abortAt = none) :
    ∀ u, envAborted env u = false := by
  intro u
  simp [envAborted, h]

lemma startLoopAux_all_retryable (env : Env)
    (hnoabort : env.abortAt = none)
    (hfail : ∀ i, ∃ e, env.submitRes i = .failure e
      ∧ (isStartRateLimit e || isStartTransient e) = true) :
    ∀ fuel t attempt backoff s w, attempt + fuel = MAX_START_RETRIES + 1 →
      (startLoopAux env fuel t attempt backoff s w).result
          = .error (.error retriesExhaustedMsg)
      ∧ (startLoopAux env fuel t attempt backoff s w).submitsMade = s + fuel := by
  intro fuel
  induction fuel with
  | zero =>
    intro t attempt backoff s w _
    exact ⟨rfl, rfl⟩
  | succ f ih =>
    intro t attempt backoff s w h
    have hab := envAborted_none env hnoabort
    obtain ⟨e, he, hre⟩ := hfail s
    by_cases hcap : attempt + 1 > MAX_START_RETRIES
    · have hf : f = 0 := by
        have hmax : MAX_START_RETRIES = 50 := rfl
        omega
      subst hf
      constructor <;> simp [startLoopAux, hab, he, hre, hcap]
    · obtain ⟨sres, ssub⟩ := ih (t + 2) (attempt + 1) (min (backoff * 3 / 2) 120000)
        (s + 1) (w ++ [backoff]) (by omega)
      constructor
      · simpa [startLoopAux, hab, he, hre, hcap] using sres
      · have : s + 1 + f = s + (f + 1) := by omega
        simpa [startLoopAux, hab, he, hre, hcap, this] using ssub

/-- Claim C2 — a run whose submission attempts all fail with retryable
(rate-limited or transient-server) classifications fails with the
retries-exhausted error after the 51st failure and makes exactly 51
submission calls — there is never a 52nd attempt. -/
theorem c2_retries_exhausted (env : Env)
    (hnoabort : env.abortAt = none)
    (hfail : ∀ i, ∃ e, env.submitRes i = .failure e
      ∧ (isStartRateLimit e || isStartTransient e) = true) :
    (startLoop env 0).result = .error (.error retriesExhaustedMsg)
    ∧ (startLoop env 0).submitsMade = 51 :=
  startLoopAux_all_retryable env hnoabort hfail (MAX_START_RETRIES + 1) 0 0 20000 0 [] rfl

/-- The 429 failure used as a concrete retryable submission result. -/
def rateLimit429 : RemoteError := ⟨some 429, none, none, "RESOURCE_EXHAUSTED"⟩

/-- The environment whose every submission attempt fails rate-limited. -/
def envAllRateLimited : Env :=
  ⟨none, fun _ => .failure rateLimit429, [], .error "x", ⟨true, "OK", 0⟩, none⟩

/-- Witness for C2 at the concrete always-rate-limited environment. -/
theorem c2_retries_exhausted_witness :
    envAllRateLimited.abortAt = none
    ∧ (startLoop envAllRateLimited 0).result = .error (.error retriesExhaustedMsg)
    ∧ (startLoop envAllRateLimited 0).submitsMade = 51 := by
  have h := c2_retries_exhausted envAllRateLimited rfl
    (fun i => ⟨rateLimit429, rfl, by decide⟩)
  exact ⟨rfl, h.1, h.2⟩

/-- The backoff value waited before the (n+1)-st retry, as iterated by the
submission loop: 20000 initially, multiplied by 1.5 and capped at 120000
after each retryable failure. -/
def backoffSeq : Nat → Nat
  | 0 => 20000
  | n + 1 => min (backoffSeq n * 3 / 2) 120000

lemma backoffSeq_cap : ∀ k, 5 ≤ k → backoffSeq k = 120000 := by
  intro k
  induction k with
  | zero => intro h; omega
  | succ n ih =>
    intro h
    rcases Nat.lt_or_ge n 5 with h5 | h5
    · have hn : n = 4 := by omega
      subst hn
      decide
    · simp only [backoffSeq]
      rw [ih h5]
      decide

lemma startLoopAux_waits_seq (env : Env) (n : Nat) (op : Operation)
    (hnoabort : env.abortAt = none)
    (hn : n ≤ MAX_START_RETRIES)
    (hfail : ∀ i < n, ∃ e, env.submitRes i = .failure e
      ∧ (isStartRateLimit e || isStartTransient e) = true)
    (hsucc : env.submitRes n = .success op) :
    ∀ k fuel t a w, a + k = n → k < fuel →
      (startLoopAux env fuel t a (backoffSeq a) a w).waits
        = w ++ (List.range k).map (fun i => backoffSeq (a + i)) := by
  intro k
  induction k with
  | zero =>
    intro fuel t a w hak hfuel
    obtain ⟨f, rfl⟩ : ∃ f, fuel = f + 1 := ⟨fuel - 1, by omega⟩
    have hab := envAborted_none env hnoabort
    have ha : a = n := by omega
    subst ha
    simp [startLoopAux, hab, hsucc]
  | succ k ih =>
    intro fuel t a w hak hfuel
    obtain ⟨f, rfl⟩ : ∃ f, fuel = f + 1 := ⟨fuel - 1, by omega⟩
    have hab := envAborted_none env hnoabort
    obtain ⟨e, he, hre⟩ := hfail a (by omega)
    have hcap : ¬(a + 1 > MAX_START_RETRIES) := by
      have hmax : MAX_START_RETRIES = 50 := rfl
      omega
    have step := ih f (t + 2) (a + 1) (w ++ [backoffSeq a]) (by omega) (by omega)
    have hrange : (List.range (k + 1)).map (fun i => backoffSeq (a + i))
        = backoffSeq a :: (List.range k).map (fun i => backoffSeq (a + 1 + i)) := by
      rw [List.range_succ_eq_map, List.map_cons, List.map_map]
      refine congrArg₂ _ (by simp) ?_
      refine List.map_congr_left (fun i _ => ?_)
      simp [Function.comp, Nat.add_assoc, Nat.add_comm 1 i]
    have hbs : min (backoffSeq a * 3 / 2) 120000 = backoffSeq (a + 1) := rfl
    simpa [startLoopAux, hab, he, hre, hcap, hbs, hrange, List.append_assoc]
      using step

/-- Claim C4 — the wait before the n-th submission retry (counting from 1) is
the n-th element of 20000, 30000, 45000, 67500, 101250, 120000, 120000, …:
the loop's waits are exactly `backoffSeq 0, …, backoffSeq (n-1)`, where
`backoffSeq` starts at 20000, multiplies by 1.5 after each retryable failure,
and is capped at 120000 from the 6th element on. -/
theorem c4_backoff_sequence (env : Env) (n : Nat) (op : Operation)
    (hnoabort : env.abortAt = none)
    (hn : n ≤ MAX_START_RETRIES)
    (hfail : ∀ i < n, ∃ e, env.submitRes i = .failure e
      ∧ (isStartRateLimit e || isStartTransient e) = true)
    (hsucc : env.submitRes n = .success op) :
    (startLoop env 0).waits = (List.range n).map backoffSeq
    ∧ backoffSeq 0 = 20000 ∧ backoffSeq 1 = 30000 ∧ backoffSeq 2 = 45000
    ∧ backoffSeq 3 = 67500 ∧ backoffSeq 4 = 101250
    ∧ (∀ k, 5 ≤ k → backoffSeq k = 120000)
    ∧ (∀ k, backoffSeq (k + 1) = min (backoffSeq k * 3 / 2) 120000) := by
  refine ⟨?_, by decide, by decide, by decide, by decide, by decide, backoffSeq_cap,
    fun k => rfl⟩
  have h := startLoopAux_waits_seq env n op hnoabort hn hfail hsucc n
    (MAX_START_RETRIES + 1) 0 0 [] (by omega) (by omega)
  rw [show backoffSeq 0 = 20000 from rfl] at h
  rw [startLoop, h]
  simp

/-- The environment whose first two submission attempts fail rate-limited and
whose third succeeds. -/
def envTwoFailures : Env :=
  ⟨none,
    fun i => if i < 2 then .failure rateLimit429
             else .success ⟨some "op1", false, none, none, none⟩,
    [], .error "x", ⟨true, "OK", 0⟩, none⟩

/-- Witness for C4: two rate-limited failures produce exactly the waits
20000 then 30000. -/
theorem c4_backoff_sequence_witness :
    (startLoop envTwoFailures 0).waits = [20000, 30000] := by
  have h := (c4_backoff_sequence envTwoFailures 2 ⟨some "op1", false, none, none, none⟩
    rfl (by decide)
    (fun i hi => ⟨rateLimit429, by simp [envTwoFailures, hi], by decide⟩)
    (by simp [envTwoFailures])).1
  rw [h]
  decide

/-! ## Claim C3 — polling-loop failure handling -/

lemma pollLoopAux_notFound_run (env : Env) (op : Operation)
    (hnoabort : env.abortAt = none) (hdone : op.done = false) :
    ∀ (es : List RemoteError) (rest : List PollResult) (rc t p : Nat) (w : List Nat),
      es ≠ [] → rc + es.length = MAX_POLLING_RETRIES →
      (∀ e ∈ es, isPollNotFound e = true) →
      (pollLoopAux env (es.map .failure ++ rest) op rc t p w).result
          = some (.error (.error pollTimeoutMsg))
      ∧ (pollLoopAux env (es.map .failure ++ rest) op rc t p w).pollsMade
          = p + es.length := by
  have hab := envAborted_none env hnoabort
  intro es
  induction es with
  | nil => intro rest rc t p w hne; exact absurd rfl hne
  | cons e es ih =>
    intro rest rc t p w _ hlen hnf
    have hee : isPollNotFound e = true := hnf e (by simp)
    cases es with
    | nil =>
      have hrc : rc + 1 ≥ MAX_POLLING_RETRIES := by
        simp at hlen
        omega
      constructor <;> simp [pollLoopAux, hdone, hab, hee, hrc]
    | cons e2 es2 =>
      have hrc : ¬(rc + 1 ≥ MAX_POLLING_RETRIES) := by
        simp [List.length] at hlen
        have hmax : MAX_POLLING_RETRIES = 120 := rfl
        omega
      obtain ⟨ihres, ihp⟩ := ih rest (rc + 1) (t + 2) (p + 1) (w ++ [10000])
        (by simp) (by simp [List.length] at hlen ⊢; omega)
        (fun d hd => hnf d (by simp [hd]))
      constructor
      · simpa [pollLoopAux, hdone, hab, hee, hrc] using ihres
      · have h2 : (pollLoopAux env ((e :: e2 :: es2).map .failure ++ rest) op rc t p w).pollsMade
            = p + 1 + (e2 :: es2).length := by
          simpa [pollLoopAux, hdone, hab, hee, hrc] using ihp
        rw [h2]
        simp
        omega

/-- Claim C3 — the polling loop's failure handling: (1) not-found failures are
counted on their own counter, and 120 consecutive not-found status-check
failures (no successful refresh in between) make the loop fail with the
polling-timeout error after exactly those 120 status requests; (2) a
rate-limited (non-not-found) failure makes the loop continue with an extra
fixed 20000 ms wait and the not-found counter untouched; (3) a successful
refresh replaces the operation snapshot and resets the not-found counter to
0; (4) any other failure is surfaced immediately as fatal. -/
theorem c3_polling_failure_handling (env : Env) (hnoabort : env.abortAt = none) :
    (∀ (op : Operation) (es : List RemoteError) (rest : List PollResult) (t p : Nat)
        (w : List Nat),
      op.done = false → es.length = 120 → (∀ e ∈ es, isPollNotFound e = true) →
      (pollLoopAux env (es.map .failure ++ rest) op 0 t p w).result
          = some (.error (.error pollTimeoutMsg))
      ∧ (pollLoopAux env (es.map .failure ++ rest) op 0 t p w).pollsMade = p + 120)
    ∧ (∀ (op : Operation) (e : RemoteError) (rs : List PollResult) (rc t p : Nat)
        (w : List Nat),
      op.done = false → isPollNotFound e = false → isPollRateLimit e = true →
      pollLoopAux env (.failure e :: rs) op rc t p w
        = pollLoopAux env rs op rc (t + 3) (p + 1) (w ++ [10000, 20000]))
    ∧ (∀ (op opNew : Operation) (rs : List PollResult) (rc t p : Nat) (w : List Nat),
      op.done = false →
      pollLoopAux env (.success opNew :: rs) op rc t p w
        = pollLoopAux env rs opNew 0 (t + 2) (p + 1) (w ++ [10000]))
    ∧ (∀ (op : Operation) (e : RemoteError) (rs : List PollResult) (rc t p : Nat)
        (w : List Nat),
      op.done = false → isPollNotFound e = false → isPollRateLimit e = false →
      pollLoopAux env (.failure e :: rs) op rc t p w
        = ⟨some (.error (.remote e)), p + 1, w ++ [10000], t + 2⟩) := by
  have hab := envAborted_none env hnoabort
  refine ⟨?_, ?_, ?_, ?_⟩
  · intro op es rest t p w hdone hlen hnf
    have h := pollLoopAux_notFound_run env op hnoabort hdone es rest 0 t p w
      (by intro h; rw [h] at hlen; simp at hlen)
      (by have hmax : MAX_POLLING_RETRIES = 120 := rfl; omega) hnf
    exact ⟨h.1, by rw [h.2, hlen]⟩
  · intro op e rs rc t p w hdone hnf hrl
    simp [pollLoopAux, hdone, hab, hnf, hrl]
  · intro op opNew rs rc t p w hdone
    simp [pollLoopAux, hdone, hab]
  · intro op e rs rc t p w hdone hnf hrl
    simp [pollLoopAux, hdone, hab, hnf, hrl]

/-- A concrete not-found status-check failure. -/
def notFound404 : RemoteError := ⟨some 404, none, none, "NOT_FOUND"⟩

/-- A concrete rate-limited (non-not-found) status-check failure. -/
def pollRate429 : RemoteError := ⟨some 429, none, none, "rate limited"⟩

/-- An environment with no abort signal for exercising the polling loop. -/
def envPollQuiet : Env :=
  ⟨none, fun _ => .failure rateLimit429, [], .error "x", ⟨true, "OK", 0⟩, none⟩

/-- A not-yet-done operation snapshot. -/
def opPending : Operation := ⟨some "op1", false, none, none, none⟩

/-- Witness for C3: 120 concrete not-found failures time the poll out after
exactly 120 status requests, and one rate-limited failure continues with the
counter untouched and an extra 20000 ms wait. -/
theorem c3_polling_failure_handling_witness :
    ((pollLoopAux envPollQuiet ((List.replicate 120 notFound404).map .failure ++ []) opPending 0 0 0 []).result
        = some (.error (.error pollTimeoutMsg))
      ∧ (pollLoopAux envPollQuiet ((List.replicate 120 notFound404).map .failure ++ []) opPending 0 0 0 []).pollsMade = 0 + 120)
    ∧ pollLoopAux envPollQuiet [.failure pollRate429] opPending 7 0 0 []
        = pollLoopAux envPollQuiet [] opPending 7 (0 + 3) (0 + 1) ([] ++ [10000, 20000]) := by
  constructor
  · exact (c3_polling_failure_handling envPollQuiet rfl).1 opPending
      (List.replicate 120 notFound404) [] 0 0 [] rfl (by simp)
      (fun e he => by rw [List.eq_of_mem_replicate he]; decide)
  · exact (c3_polling_failure_handling envPollQuiet rfl).2.1 opPending pollRate429 [] 7 0 0 []
      rfl (by decide) (by decide)

/-! ## Claim C8 — download authentication -/

lemma setParam_mem (k v : String) : ∀ ps : List (String × String), (k, v) ∈ setParam ps k v := by
  intro ps
  induction ps with
  | nil => simp [setParam]
  | cons p ps ih =>
    by_cases h : p.1 = k <;> simp [setParam, h, ih]

/-- Counterexample for claim C8 as stated: with a Direct-key credential and a
locator whose URL parse fails, the live driver performs no fetch at all — in
particular no fetch against the string-concatenated URL the claim's fallback
describes — and instead fails with the wrapped parse error.  (The
concatenation fallback exists only in the unused older service copy
`src/unnamed/part_001`; the imported service has none.) -/
theorem c8_counterexample :
    downloadPhase false none (some "K") none (.error "Invalid URL") false ⟨true, "OK", 7⟩
      = (.error (.error "Video download error: Invalid URL"), [])
    ∧ ¬∃ c ∈ (downloadPhase false none (some "K") none (.error "Invalid URL") false
        ⟨true, "OK", 7⟩).2, c.url = "bad url?key=K" := by
  constructor
  · rfl
  · rintro ⟨c, hc, -⟩
    simp [downloadPhase] at hc

/-- Claim C8 (amended) — download credential attachment per mode: with a
Delegated credential the trimmed access token is sent as a Bearer
authorization header and the fetched URL is the parsed locator unchanged (no
credential added to it); with a Direct-key credential the sanitized key is
set as the `key` query parameter of the locator URL and the single fetch
carries no authorization header and `credentials: 'omit'`; when URL parsing
fails, no fetch occurs and the download fails with the wrapped parse error
(the live driver has no string-concatenation fallback); any non-success
response status fails with the download-failed error carrying the status
text. -/
theorem c8_download_auth (u : URLm) (tok : String) (ck ek : Option String)
    (resp : FetchResult) (k : String) :
    (downloadPhase true (some tok) ck ek (.ok u) false resp).2
        = [⟨renderURL u, some ("Bearer " ++ jsTrim tok), false⟩]
    ∧ (sanitizeKey (rawKeyOf ck ek) = some k → k ≠ "" →
        (downloadPhase false none ck ek (.ok u) false resp).2
          = [⟨renderURL { u with params := setParam u.params "key" k }, none, true⟩]
        ∧ ("key", k) ∈ setParam u.params "key" k)
    ∧ (resp.ok = false →
        (downloadPhase false none ck ek (.ok u) false resp).1
            = .error (.error ("Video download error: Download failed: " ++ resp.statusText))
        ∧ (downloadPhase true (some tok) ck ek (.ok u) false resp).1
            = .error (.error ("Video download error: Download failed: " ++ resp.statusText)))
    ∧ (∀ m : String, downloadPhase false none ck ek (.error m) false resp
          = (.error (.error ("Video download error: " ++ m)), [])) := by
  refine ⟨?_, ?_, ?_, ?_⟩
  · by_cases h : resp.ok <;> simp [downloadPhase, h]
  · intro hk hne
    refine ⟨?_, setParam_mem "key" k u.params⟩
    by_cases h : resp.ok <;> simp [downloadPhase, hk, hne, h]
  · intro h
    constructor
    · cases hs : sanitizeKey (rawKeyOf ck ek) with
      | none => simp [downloadPhase, hs, h]
      | some k2 =>
        by_cases hk2 : k2 = "" <;> simp [downloadPhase, hs, hk2, h]
    · simp [downloadPhase, h]
  · intro m
    rfl

/-- Witness for C8 (amended) at a concrete locator, token and key. -/
theorem c8_download_auth_witness :
    (downloadPhase true (some " tok ") (some "K") none
        (.ok ⟨"https://dl/v", []⟩) false ⟨true, "OK", 7⟩).2
      = [⟨renderURL ⟨"https://dl/v", []⟩, some ("Bearer " ++ jsTrim " tok "), false⟩]
    ∧ (downloadPhase false none (some "K") none
        (.ok ⟨"https://dl/v", []⟩) false ⟨true, "OK", 7⟩).2
      = [⟨renderURL ⟨"https://dl/v", setParam [] "key" "K"⟩, none, true⟩] := by
  have h := c8_download_auth ⟨"https://dl/v", []⟩ " tok " (some "K") none ⟨true, "OK", 7⟩ "K"
  exact ⟨h.1, (h.2.1 (by decide) (by decide)).1⟩

/-! ## Claim C5 — queue state-machine invariants: supporting lemmas -/

/-- The projection a status-level argument cares about. -/
def idStatus (j : VideoJob) : String × JobStatus := (j.id, j.status)

lemma stepOKB_refl (a : JobStatus) : stepOKB a a = true := by
  cases a <;> rfl

lemma allZipMap (s : List VideoJob) (f : VideoJob → VideoJob)
    (p : VideoJob × VideoJob → Bool) (h : ∀ j ∈ s, p (j, f j) = true) :
    (List.zip s (s.map f)).all p = true := by
  induction s with
  | nil => rfl
  | cons j js ih =>
    rw [List.map_cons, List.zip_cons_cons, List.all_cons, h j (by simp),
      ih (fun j2 hj2 => h j2 (by simp [hj2]))]
    rfl

lemma pairStep_map (ok : JobStatus → JobStatus → Bool) (s : List VideoJob)
    (f : VideoJob → VideoJob) (hid : ∀ j, (f j).id = j.id)
    (hok : ∀ j ∈ s, ok j.status (f j).status = true) :
    pairStepB ok s (s.map f) = true := by
  unfold pairStepB
  have h1 : (s.length == (s.map f).length) = true := by simp
  rw [h1, allZipMap s f _ (fun j hj => by simp [hid j, hok j hj])]
  rfl

lemma chainStepB_cons_cons (ok : JobStatus → JobStatus → Bool)
    (a b : List VideoJob) (l : List (List VideoJob)) :
    chainStepB ok (a :: b :: l) = (pairStepB ok a b && chainStepB ok (b :: l)) := rfl

lemma chainStepB_cons_append (ok : JobStatus → JobStatus → Bool) :
    ∀ (m : List (List VideoJob)) (a : List VideoJob) (l2 : List (List VideoJob)),
    chainStepB ok (a :: m) = true → chainStepB ok (m.getLastD a :: l2) = true →
    chainStepB ok ((a :: m) ++ l2) = true := by
  intro m
  induction m with
  | nil =>
    intro a l2 _ h2
    simpa using h2
  | cons b mm ih =>
    intro a l2 h1 h2
    rw [chainStepB_cons_cons, Bool.and_eq_true] at h1
    obtain ⟨hp, hc⟩ := h1
    rw [List.getLastD_cons] at h2
    have := ih b l2 hc h2
    rw [List.cons_append, List.cons_append, chainStepB_cons_cons, hp,
      ← List.cons_append, this]
    rfl

lemma getLast?_cons_getLastD (a : List VideoJob) (l : List (List VideoJob)) :
    (a :: l).getLast? = some (l.getLastD a) := by
  induction l generalizing a with
  | nil => rfl
  | cons b bs ih => rw [List.getLast?_cons_cons, ih, List.getLastD_cons]

lemma map_ids_of_id_pres (s : List VideoJob) (f : VideoJob → VideoJob)
    (h : ∀ j, (f j).id = j.id) :
    (s.map f).map (fun j => j.id) = s.map (fun j => j.id) := by
  rw [List.map_map]
  exact List.map_congr_left (fun j _ => h j)

lemma ids_of_idStatus_eq (a b : List VideoJob)
    (h : b.map idStatus = a.map idStatus) :
    b.map (fun j => j.id) = a.map (fun j => j.id) := by
  have := congrArg (List.map Prod.fst) h
  simpa [List.map_map, Function.comp, idStatus] using this

lemma forall_of_idStatus_eq (P : String → JobStatus → Prop) (a b : List VideoJob)
    (h : b.map idStatus = a.map idStatus)
    (ha : ∀ j ∈ a, P j.id j.status) : ∀ j ∈ b, P j.id j.status := by
  intro j hj
  have hmem : idStatus j ∈ a.map idStatus := by
    rw [← h]
    exact List.mem_map_of_mem _ hj
  obtain ⟨j2, hj2, he⟩ := List.mem_map.mp hmem
  have h1 : j2.id = j.id := congrArg Prod.fst he
  have h2 : j2.status = j.status := congrArg Prod.snd he
  rw [← h1, ← h2]
  exact ha j2 hj2

lemma processingCount_of_idStatus_eq (a b : List VideoJob)
    (h : b.map idStatus = a.map idStatus) :
    processingCount b = processingCount a := by
  unfold processingCount
  have := congrArg (List.countP (fun q => q.2 == JobStatus.processing)) h
  simpa [List.countP_map, Function.comp, idStatus] using this

lemma processingCount_eq_zero (s : List VideoJob)
    (h : ∀ j ∈ s, j.status ≠ .processing) : processingCount s = 0 := by
  unfold processingCount
  rw [List.countP_eq_zero]
  intro j hj
  simpa using h j hj

lemma setProgress_idStatus (jid p : String) (s : List VideoJob) :
    (setProgress jid p s).map idStatus = s.map idStatus := by
  unfold setProgress
  rw [List.map_map]
  refine List.map_congr_left (fun j _ => ?_)
  by_cases h : j.id = jid <;> simp [Function.comp, idStatus, h]

lemma progressStates_getLastD_idStatus (jid : String) :
    ∀ (ps : List String) (s : List VideoJob),
    ((progressStates jid ps s).getLastD s).map idStatus = s.map idStatus := by
  intro ps
  induction ps with
  | nil => intro s; rfl
  | cons p ps ih =>
    intro s
    show ((setProgress jid p s :: progressStates jid ps (setProgress jid p s)).getLastD s).map idStatus
      = s.map idStatus
    rw [List.getLastD_cons, ih (setProgress jid p s), setProgress_idStatus]

lemma progressStates_mem_idStatus (jid : String) :
    ∀ (ps : List String) (s : List VideoJob),
    ∀ x ∈ progressStates jid ps s, x.map idStatus = s.map idStatus := by
  intro ps
  induction ps with
  | nil => intro s x hx; simp [progressStates] at hx
  | cons p ps ih =>
    intro s x hx
    rw [show progressStates jid (p :: ps) s
      = setProgress jid p s :: progressStates jid ps (setProgress jid p s) from rfl] at hx
    rcases List.mem_cons.mp hx with rfl | hx
    · rw [setProgress_idStatus]
    · rw [ih (setProgress jid p s) x hx, setProgress_idStatus]

lemma progressStates_chain (ok : JobStatus → JobStatus → Bool)
    (hrefl : ∀ a, ok a a = true) (jid : String) :
    ∀ (ps : List String) (s : List VideoJob),
    chainStepB ok (s :: progressStates jid ps s) = true := by
  intro ps
  induction ps with
  | nil => intro s; rfl
  | cons p ps ih =>
    intro s
    show chainStepB ok
      (s :: setProgress jid p s :: progressStates jid ps (setProgress jid p s)) = true
    have hpair : pairStepB ok s (setProgress jid p s) = true := by
      unfold setProgress
      refine pairStep_map ok s _ (fun j => ?_) (fun j _ => ?_)
      · by_cases h : j.id = jid <;> simp [h]
      · by_cases h : j.id = jid <;> simp [h, hrefl]
    rw [chainStepB_cons_cons, ih (setProgress jid p s), hpair]
    rfl

lemma id_inj_of_nodup :
    ∀ jobs : List VideoJob, (jobs.map (fun j => j.id)).Nodup →
      ∀ j ∈ jobs, ∀ j2 ∈ jobs, j.id = j2.id → j = j2 := by
  intro jobs
  induction jobs with
  | nil => intro _ j hj; simp at hj
  | cons a l ih =>
    intro hnd j hj j2 hj2 he
    rw [List.map_cons, List.nodup_cons] at hnd
    rcases List.mem_cons.mp hj with h1 | h1
    · rcases List.mem_cons.mp hj2 with h2 | h2
      · rw [h1, h2]
      · exfalso
        apply hnd.1
        rw [show a.id = j2.id from by rw [← h1, he]]
        exact List.mem_map_of_mem _ h2
    · rcases List.mem_cons.mp hj2 with h2 | h2
      · exfalso
        apply hnd.1
        rw [show a.id = j.id from by rw [← h2, ← he]]
        exact List.mem_map_of_mem _ h1
      · exact ih hnd.2 j h1 j2 h2 he

lemma toProcessing_count (jid : String) :
    ∀ s : List VideoJob, (∀ j ∈ s, j.status ≠ .processing) →
      (s.map (fun j => j.id)).Nodup →
      processingCount (toProcessing jid s) ≤ 1 := by
  intro s
  induction s with
  | nil => intro _ _; simp [toProcessing, processingCount]
  | cons j js ih =>
    intro hnp hnd
    rw [List.map_cons, List.nodup_cons] at hnd
    have hcons : toProcessing jid (j :: js)
        = (if j.id = jid then
            { j with status := JobStatus.processing, progress := some "Starting..." }
           else j) :: toProcessing jid js := by
      simp [toProcessing]
    rw [hcons]
    unfold processingCount
    rw [List.countP_cons]
    by_cases hj : j.id = jid
    · have hz : List.countP (fun j2 => j2.status == JobStatus.processing)
          (toProcessing jid js) = 0 := by
        rw [List.countP_eq_zero]
        intro j2 hj2
        simp only [toProcessing] at hj2
        obtain ⟨j0, hj0, rfl⟩ := List.mem_map.mp hj2
        have hne : j0.id ≠ jid := by
          intro he
          exact hnd.1 (by rw [hj, ← he]; exact List.mem_map_of_mem _ hj0)
        simp only [if_neg hne]
        simpa using hnp j0 (by simp [hj0])
      rw [hz, if_pos hj]
      simp
    · have htail := ih (fun j2 hj2 => hnp j2 (by simp [hj2])) hnd.2
      unfold processingCount at htail
      rw [if_neg hj]
      have hj0 : (j.status == JobStatus.processing) = false := by
        simpa using hnp j (by simp)
      rw [hj0]
      simpa using htail

/-! Unfolding equations for one iteration of the queue-pass loop. -/

lemma processPassAux_stop (jobs : List VideoJob) (jid : String) (rest : List String)
    (runs : List JobRun) (ab : Bool) (h : ab = true ∨ runs = []) :
    processPassAux jobs (jid :: rest) runs ab = ⟨[], []⟩ := by
  rcases h with h | h
  · cases runs <;> simp [processPassAux, h]
  · rw [h]
    cases ab <;> simp [processPassAux]

lemma processPassAux_ok_states (jobs : List VideoJob) (jid : String)
    (rest : List String) (run : JobRun) (runs2 : List JobRun) (url : String)
    (hres : run.result = .ok url) :
    (processPassAux jobs (jid :: rest) (run :: runs2) false).states
      = toProcessing jid jobs
        :: (progressStates jid run.progressUpdates (toProcessing jid jobs)
            ++ toCompleted jid url
                ((progressStates jid run.progressUpdates (toProcessing jid jobs)).getLastD
                  (toProcessing jid jobs))
              :: (processPassAux
                  (toCompleted jid url
                    ((progressStates jid run.progressUpdates (toProcessing jid jobs)).getLastD
                      (toProcessing jid jobs)))
                  rest runs2 run.abortedAfter).states) := by
  simp [processPassAux, hres]

lemma processPassAux_ok_started (jobs : List VideoJob) (jid : String)
    (rest : List String) (run : JobRun) (runs2 : List JobRun) (url : String)
    (hres : run.result = .ok url) :
    (processPassAux jobs (jid :: rest) (run :: runs2) false).started
      = jid :: (processPassAux
          (toCompleted jid url
            ((progressStates jid run.progressUpdates (toProcessing jid jobs)).getLastD
              (toProcessing jid jobs)))
          rest runs2 run.abortedAfter).started := by
  simp [processPassAux, hres]

lemma processPassAux_abort_states (jobs : List VideoJob) (jid : String)
    (rest : List String) (run : JobRun) (runs2 : List JobRun) (e : JSError)
    (hres : run.result = .error e) (habs : isAbortShape e = true) :
    (processPassAux jobs (jid :: rest) (run :: runs2) false).states
      = toProcessing jid jobs
        :: (progressStates jid run.progressUpdates (toProcessing jid jobs)
            ++ [cancelJobs jid
                ((progressStates jid run.progressUpdates (toProcessing jid jobs)).getLastD
                  (toProcessing jid jobs))]) := by
  simp [processPassAux, hres, habs]

lemma processPassAux_abort_started (jobs : List VideoJob) (jid : String)
    (rest : List String) (run : JobRun) (runs2 : List JobRun) (e : JSError)
    (hres : run.result = .error e) (habs : isAbortShape e = true) :
    (processPassAux jobs (jid :: rest) (run :: runs2) false).started = [jid] := by
  simp [processPassAux, hres, habs]

lemma processPassAux_fail_states (jobs : List VideoJob) (jid : String)
    (rest : List String) (run : JobRun) (runs2 : List JobRun) (e : JSError)
    (hres : run.result = .error e) (habs : isAbortShape e = false) :
    (processPassAux jobs (jid :: rest) (run :: runs2) false).states
      = toProcessing jid jobs
        :: (progressStates jid run.progressUpdates (toProcessing jid jobs)
            ++ toFailedMsg jid (messageOr e "Failed")
                ((progressStates jid run.progressUpdates (toProcessing jid jobs)).getLastD
                  (toProcessing jid jobs))
              :: (processPassAux
                  (toFailedMsg jid (messageOr e "Failed")
                    ((progressStates jid run.progressUpdates (toProcessing jid jobs)).getLastD
                      (toProcessing jid jobs)))
                  rest runs2 run.abortedAfter).states) := by
  simp [processPassAux, hres, habs]

lemma processPassAux_fail_started (jobs : List VideoJob) (jid : String)
    (rest : List String) (run : JobRun) (runs2 : List JobRun) (e : JSError)
    (hres : run.result = .error e) (habs : isAbortShape e = false) :
    (processPassAux jobs (jid :: rest) (run :: runs2) false).started
      = jid :: (processPassAux
          (toFailedMsg jid (messageOr e "Failed")
            ((progressStates jid run.progressUpdates (toProcessing jid jobs)).getLastD
              (toProcessing jid jobs)))
          rest runs2 run.abortedAfter).started := by
  simp [processPassAux, hres, habs]

lemma processPass_invariants :
    ∀ (pend : List String) (runs : List JobRun) (jobs : List VideoJob) (ab : Bool),
    (jobs.map (fun j => j.id)).Nodup → pend.Nodup →
    (∀ j ∈ jobs, j.id ∈ pend → j.status = .pending) →
    (∀ j ∈ jobs, j.status ≠ .processing) →
    chainStepB stepOKB (jobs :: (processPassAux jobs pend runs ab).states) = true
    ∧ (∀ s ∈ (processPassAux jobs pend runs ab).states, processingCount s ≤ 1)
    ∧ (∃ k, (processPassAux jobs pend runs ab).started = pend.take k) := by
  intro pend
  induction pend with
  | nil =>
    intro runs jobs ab _ _ _ _
    refine ⟨rfl, ?_, ⟨0, rfl⟩⟩
    intro s hs
    simp [processPassAux] at hs
  | cons jid rest ih =>
    intro runs jobs ab h1 h2 h3 h4
    by_cases hab : ab = true
    · rw [processPassAux_stop jobs jid rest runs ab (Or.inl hab)]
      exact ⟨rfl, fun s hs => by simp at hs, ⟨0, rfl⟩⟩
    rw [Bool.not_eq_true] at hab
    subst hab
    cases runs with
    | nil =>
      rw [processPassAux_stop jobs jid rest [] false (Or.inr rfl)]
      exact ⟨rfl, fun s hs => by simp at hs, ⟨0, rfl⟩⟩
    | cons run runs2 =>
      have hjid_notin : jid ∉ rest := (List.nodup_cons.mp h2).1
      have hrest_nd : rest.Nodup := (List.nodup_cons.mp h2).2
      have hpend_j : ∀ j ∈ jobs, j.id = jid → j.status = .pending :=
        fun j hj he => h3 j hj (by rw [he]; exact List.mem_cons_self _ _)
      -- facts about s1 = toProcessing jid jobs
      have hpair1 : pairStepB stepOKB jobs (toProcessing jid jobs) = true := by
        unfold toProcessing
        refine pairStep_map _ _ _ (fun j => ?_) (fun j hj => ?_)
        · by_cases h : j.id = jid <;> simp [h]
        · by_cases h : j.id = jid
          · rw [if_pos h, hpend_j j hj h]
            rfl
          · rw [if_neg h]
            exact stepOKB_refl _
      have hids1 : (toProcessing jid jobs).map (fun j => j.id) = jobs.map (fun j => j.id) := by
        unfold toProcessing
        exact map_ids_of_id_pres _ _ (fun j => by by_cases h : j.id = jid <;> simp [h])
      have hs1P : ∀ j ∈ toProcessing jid jobs,
          (j.id = jid → j.status = .processing)
          ∧ (j.id ≠ jid → j.status ≠ .processing ∧ (j.id ∈ rest → j.status = .pending)) := by
        unfold toProcessing
        intro j2 hj2
        obtain ⟨j, hj, rfl⟩ := List.mem_map.mp hj2
        by_cases h : j.id = jid
        · rw [if_pos h]
          exact ⟨fun _ => rfl, fun hne => absurd h hne⟩
        · rw [if_neg h]
          exact ⟨fun he => absurd he h, fun _ =>
            ⟨h4 j hj, fun hr => h3 j hj (List.mem_cons_of_mem _ hr)⟩⟩
      have hchain_ss : chainStepB stepOKB
          (toProcessing jid jobs
            :: progressStates jid run.progressUpdates (toProcessing jid jobs)) = true :=
        progressStates_chain _ stepOKB_refl jid _ _
      have hcount1 : processingCount (toProcessing jid jobs) ≤ 1 :=
        toProcessing_count jid jobs h4 h1
      have hcount_ss : ∀ x ∈ progressStates jid run.progressUpdates (toProcessing jid jobs),
          processingCount x ≤ 1 := by
        intro x hx
        rw [processingCount_of_idStatus_eq (toProcessing jid jobs) x
          (progressStates_mem_idStatus jid _ _ x hx)]
        exact hcount1
      -- facts about s2, the last progress snapshot
      have hproj2 :
          ((progressStates jid run.progressUpdates (toProcessing jid jobs)).getLastD
            (toProcessing jid jobs)).map idStatus
          = (toProcessing jid jobs).map idStatus :=
        progressStates_getLastD_idStatus jid _ _
      have hs2P : ∀ j ∈ (progressStates jid run.progressUpdates (toProcessing jid jobs)).getLastD
            (toProcessing jid jobs),
          (j.id = jid → j.status = .processing)
          ∧ (j.id ≠ jid → j.status ≠ .processing ∧ (j.id ∈ rest → j.status = .pending)) :=
        forall_of_idStatus_eq
          (fun i st => (i = jid → st = .processing)
            ∧ (i ≠ jid → st ≠ .processing ∧ (i ∈ rest → st = .pending)))
          (toProcessing jid jobs) _ hproj2 hs1P
      have hids2 :
          ((progressStates jid run.progressUpdates (toProcessing jid jobs)).getLastD
            (toProcessing jid jobs)).map (fun j => j.id)
          = jobs.map (fun j => j.id) := by
        rw [ids_of_idStatus_eq _ _ hproj2, hids1]
      have hlastss :
          (toProcessing jid jobs
            :: progressStates jid run.progressUpdates (toProcessing jid jobs)).getLast?
          = some ((progressStates jid run.progressUpdates (toProcessing jid jobs)).getLastD
              (toProcessing jid jobs)) :=
        getLast?_cons_getLastD _ _
      rcases hres : run.result with e | url
      · -- failure: cancellation or plain failure
        by_cases habs : isAbortShape e = true
        · rw [processPassAux_abort_states jobs jid rest run runs2 e hres habs,
            processPassAux_abort_started jobs jid rest run runs2 e hres habs]
          set s2 := (progressStates jid run.progressUpdates (toProcessing jid jobs)).getLastD
            (toProcessing jid jobs) with hs2def
          set sc := cancelJobs jid s2 with hscdef
          have hidc : ∀ j : VideoJob, ((fun j => if j.id = jid then
              { j with status := JobStatus.failed, error := some "Cancelled" }
              else if j.status = JobStatus.pending then
                { j with status := JobStatus.failed, error := some "Stopped by user" }
              else j) j).id = j.id := by
            intro j
            by_cases h : j.id = jid
            · simp [h]
            · by_cases h2 : j.status = JobStatus.pending <;> simp [h, h2]
          have hpair2c : pairStepB stepOKB s2 sc = true := by
            rw [hscdef]
            unfold cancelJobs
            refine pairStep_map _ _ _ hidc (fun j hj => ?_)
            by_cases h : j.id = jid
            · rw [if_pos h, (hs2P j hj).1 h]
              rfl
            · rw [if_neg h]
              by_cases h2 : j.status = JobStatus.pending
              · rw [if_pos h2, h2]
                rfl
              · rw [if_neg h2]
                exact stepOKB_refl _
          have hscnoproc : ∀ j2 ∈ sc, j2.status ≠ .processing := by
            intro j2 hj2
            rw [hscdef] at hj2
            unfold cancelJobs at hj2
            obtain ⟨j, hj, rfl⟩ := List.mem_map.mp hj2
            by_cases h : j.id = jid
            · simp [h]
            · by_cases h2 : j.status = JobStatus.pending
              · simp [h, h2]
              · simpa [h, h2] using ((hs2P j hj).2 h).1
          refine ⟨?_, ?_, ⟨1, rfl⟩⟩
          · rw [show (toProcessing jid jobs
                :: (progressStates jid run.progressUpdates (toProcessing jid jobs) ++ [sc]))
              = ((toProcessing jid jobs
                  :: progressStates jid run.progressUpdates (toProcessing jid jobs))
                ++ [sc]) from by simp]
            have hmid : chainStepB stepOKB (s2 :: [sc]) = true := by
              rw [chainStepB_cons_cons, hpair2c]
              rfl
            have happ := chainStepB_cons_append stepOKB
              (progressStates jid run.progressUpdates (toProcessing jid jobs))
              (toProcessing jid jobs) [sc]
              hchain_ss hmid
            rw [List.cons_append] at happ ⊢
            rw [chainStepB_cons_cons, hpair1, happ]
            rfl
          · intro s hs
            rcases List.mem_cons.mp hs with rfl | hs
            · exact hcount1
            rcases List.mem_append.mp hs with hs | hs
            · exact hcount_ss s hs
            · rcases List.mem_singleton.mp hs with rfl
              rw [processingCount_eq_zero _ hscnoproc]
              omega
        · rw [Bool.not_eq_true] at habs
          rw [processPassAux_fail_states jobs jid rest run runs2 e hres habs,
            processPassAux_fail_started jobs jid rest run runs2 e hres habs]
          set s2 := (progressStates jid run.progressUpdates (toProcessing jid jobs)).getLastD
            (toProcessing jid jobs) with hs2def
          set s3 := toFailedMsg jid (messageOr e "Failed") s2 with hs3def
          have hid3 : ∀ j : VideoJob, ((fun j => if j.id = jid then
              { j with status := JobStatus.failed, error := some (messageOr e "Failed") }
              else j) j).id = j.id := by
            intro j
            by_cases h : j.id = jid <;> simp [h]
          have hpair23 : pairStepB stepOKB s2 s3 = true := by
            rw [hs3def]
            unfold toFailedMsg
            refine pairStep_map _ _ _ hid3 (fun j hj => ?_)
            by_cases h : j.id = jid
            · rw [if_pos h, (hs2P j hj).1 h]
              rfl
            · rw [if_neg h]
              exact stepOKB_refl _
          have hs3mem : ∀ j2 ∈ s3, ∃ j ∈ s2, j2 = (fun j => if j.id = jid then
              { j with status := JobStatus.failed, error := some (messageOr e "Failed") }
              else j) j := by
            intro j2 hj2
            rw [hs3def] at hj2
            unfold toFailedMsg at hj2
            obtain ⟨j, hj, he2⟩ := List.mem_map.mp hj2
            exact ⟨j, hj, he2.symm⟩
          have hs3noproc : ∀ j2 ∈ s3, j2.status ≠ .processing := by
            intro j2 hj2
            obtain ⟨j, hj, rfl⟩ := hs3mem j2 hj2
            by_cases h : j.id = jid
            · simp [h]
            · simpa [h] using ((hs2P j hj).2 h).1
          have hs3pend : ∀ j2 ∈ s3, j2.id ∈ rest → j2.status = .pending := by
            intro j2 hj2 hr
            obtain ⟨j, hj, rfl⟩ := hs3mem j2 hj2
            by_cases h : j.id = jid
            · exfalso
              apply hjid_notin
              simpa [h] using hr
            · simp only [if_neg h] at hr ⊢
              exact ((hs2P j hj).2 h).2 hr
          have hids3 : s3.map (fun j => j.id) = jobs.map (fun j => j.id) := by
            rw [hs3def]
            unfold toFailedMsg
            rw [map_ids_of_id_pres _ _ hid3]
            exact hids2
          obtain ⟨ihc, ihcnt, k, ihst⟩ :=
            ih runs2 s3 run.abortedAfter (by rw [hids3]; exact h1) hrest_nd hs3pend hs3noproc
          refine ⟨?_, ?_, ⟨k + 1, ?_⟩⟩
          · rw [show (toProcessing jid jobs
                :: (progressStates jid run.progressUpdates (toProcessing jid jobs)
                  ++ s3 :: (processPassAux s3 rest runs2 run.abortedAfter).states))
              = ((toProcessing jid jobs
                  :: progressStates jid run.progressUpdates (toProcessing jid jobs))
                ++ (s3 :: (processPassAux s3 rest runs2 run.abortedAfter).states)) from by
              simp]
            have hmid : chainStepB stepOKB
                (s2 :: s3 :: (processPassAux s3 rest runs2 run.abortedAfter).states) = true := by
              rw [chainStepB_cons_cons, hpair23, ihc]
              rfl
            have happ := chainStepB_cons_append stepOKB
              (progressStates jid run.progressUpdates (toProcessing jid jobs))
              (toProcessing jid jobs)
              (s3 :: (processPassAux s3 rest runs2 run.abortedAfter).states)
              hchain_ss hmid
            rw [List.cons_append] at happ ⊢
            rw [chainStepB_cons_cons, hpair1, happ]
            rfl
          · intro s hs
            rcases List.mem_cons.mp hs with rfl | hs
            · exact hcount1
            rcases List.mem_append.mp hs with hs | hs
            · exact hcount_ss s hs
            rcases List.mem_cons.mp hs with rfl | hs
            · rw [processingCount_eq_zero _ hs3noproc]
              omega
            · exact ihcnt s hs
          · rw [ihst, List.take_succ_cons]

      · -- success: toCompleted
        rw [processPassAux_ok_states jobs jid rest run runs2 url hres,
          processPassAux_ok_started jobs jid rest run runs2 url hres]
        set s2 := (progressStates jid run.progressUpdates (toProcessing jid jobs)).getLastD
          (toProcessing jid jobs) with hs2def
        set s3 := toCompleted jid url s2 with hs3def
        have hid3 : ∀ j : VideoJob, ((fun j => if j.id = jid then
            { j with status := JobStatus.completed, videoUrl := some url, progress := some "Done" } else j) j).id = j.id := by
          intro j
          by_cases h : j.id = jid <;> simp [h]
        have hpair23 : pairStepB stepOKB s2 s3 = true := by
          rw [hs3def]
          unfold toCompleted
          refine pairStep_map _ _ _ hid3 (fun j hj => ?_)
          by_cases h : j.id = jid
          · rw [if_pos h, (hs2P j hj).1 h]
            rfl
          · rw [if_neg h]
            exact stepOKB_refl _
        have hs3mem : ∀ j2 ∈ s3, ∃ j ∈ s2, j2 = (fun j => if j.id = jid then
            { j with status := JobStatus.completed, videoUrl := some url, progress := some "Done" } else j) j := by
          intro j2 hj2
          rw [hs3def] at hj2
          unfold toCompleted at hj2
          obtain ⟨j, hj, he⟩ := List.mem_map.mp hj2
          exact ⟨j, hj, he.symm⟩
        have hs3noproc : ∀ j2 ∈ s3, j2.status ≠ .processing := by
          intro j2 hj2
          obtain ⟨j, hj, rfl⟩ := hs3mem j2 hj2
          by_cases h : j.id = jid
          · simp [h]
          · simpa [h] using ((hs2P j hj).2 h).1
        have hs3pend : ∀ j2 ∈ s3, j2.id ∈ rest → j2.status = .pending := by
          intro j2 hj2 hr
          obtain ⟨j, hj, rfl⟩ := hs3mem j2 hj2
          by_cases h : j.id = jid
          · exfalso
            apply hjid_notin
            simpa [h] using hr
          · simp only [if_neg h] at hr ⊢
            exact ((hs2P j hj).2 h).2 hr
        have hids3 : s3.map (fun j => j.id) = jobs.map (fun j => j.id) := by
          rw [hs3def]
          unfold toCompleted
          rw [map_ids_of_id_pres _ _ hid3]
          exact hids2
        obtain ⟨ihc, ihcnt, k, ihst⟩ :=
          ih runs2 s3 run.abortedAfter (by rw [hids3]; exact h1) hrest_nd hs3pend hs3noproc
        refine ⟨?_, ?_, ⟨k + 1, ?_⟩⟩
        · rw [show (toProcessing jid jobs
              :: (progressStates jid run.progressUpdates (toProcessing jid jobs)
                ++ s3 :: (processPassAux s3 rest runs2 run.abortedAfter).states))
            = ((toProcessing jid jobs
                :: progressStates jid run.progressUpdates (toProcessing jid jobs))
              ++ (s3 :: (processPassAux s3 rest runs2 run.abortedAfter).states)) from by
            simp]
          have hmid : chainStepB stepOKB
              (s2 :: s3 :: (processPassAux s3 rest runs2 run.abortedAfter).states) = true := by
            rw [chainStepB_cons_cons, hpair23, ihc]
            rfl
          have happ := chainStepB_cons_append stepOKB
            (progressStates jid run.progressUpdates (toProcessing jid jobs))
            (toProcessing jid jobs)
            (s3 :: (processPassAux s3 rest runs2 run.abortedAfter).states)
            hchain_ss hmid
          rw [List.cons_append] at happ ⊢
          rw [chainStepB_cons_cons, hpair1, happ]
          rfl
        · intro s hs
          rcases List.mem_cons.mp hs with rfl | hs
          · exact hcount1
          rcases List.mem_append.mp hs with hs | hs
          · exact hcount_ss s hs
          rcases List.mem_cons.mp hs with rfl | hs
          · rw [processingCount_eq_zero _ hs3noproc]
            omega
          · exact ihcnt s hs
        · rw [ihst, List.take_succ_cons]

/-- Two enqueued pending jobs for the C5 counterexample. -/
def jobsCancelPair : List VideoJob :=
  [⟨"a", 0, .pending, none, none, none, "t0"⟩,
   ⟨"b", 1, .pending, none, none, none, "t1"⟩]

/-- A single run that settles with the abort exception. -/
def runsCancelPair : List JobRun := [⟨[], .error .abortError, true⟩]

/-- Counterexample for claim C5 as stated: with two pending jobs and a
cancellation during the first job, the observed state sequence violates the
claimed transition discipline — the still-pending second job transitions
directly `Pending → Failed` ("Stopped by user"), skipping `Processing`.  The
second and third conjuncts exhibit the offending adjacent pair of states. -/
theorem c5_counterexample :
    chainStepB specStepOKB (passStates jobsCancelPair runsCancelPair) = false
    ∧ (passStates jobsCancelPair runsCancelPair).getLastD [] =
      [⟨"a", 0, .failed, some "Starting...", none, some "Cancelled", "t0"⟩,
       ⟨"b", 1, .failed, none, none, some "Stopped by user", "t1"⟩]
    ∧ ((passStates jobsCancelPair runsCancelPair).get? 1).map
        (fun s => s.map (fun j => (j.id, j.status)))
      = some [("a", .processing), ("b", .pending)] := by
  refine ⟨by decide, by decide, by decide⟩

/-- Claim C5 (amended) — over every reachable state of a queue pass started
from a job list with distinct ids and no job already `Processing`: every
job's status moves only along `Pending → Processing → (Completed | Failed)`,
never re-entering `Pending`, with the single exception that the cancellation
branch moves still-`Pending` jobs directly to `Failed` ("Stopped by user");
at most one job is `Processing` in any observed state; and the jobs set to
`Processing` are exactly an in-order prefix of the pending jobs in enqueue
order. -/
theorem c5_amended_queue_invariants (jobs : List VideoJob) (runs : List JobRun)
    (hids : (jobs.map (fun j => j.id)).Nodup)
    (hnoproc : ∀ j ∈ jobs, j.status ≠ .processing) :
    chainStepB stepOKB (passStates jobs runs) = true
    ∧ (∀ s ∈ passStates jobs runs, processingCount s ≤ 1)
    ∧ (∃ k, passStarted jobs runs = (pendingIds jobs).take k) := by
  have hpnd : (pendingIds jobs).Nodup := by
    unfold pendingIds
    exact List.Nodup.sublist
      (List.Sublist.map _ (List.filter_sublist jobs)) hids
  have h3 : ∀ j ∈ jobs, j.id ∈ pendingIds jobs → j.status = .pending := by
    intro j hj hid
    unfold pendingIds at hid
    obtain ⟨j2, hj2, he⟩ := List.mem_map.mp hid
    have hj2f := List.mem_filter.mp hj2
    rw [id_inj_of_nodup jobs hids j hj j2 hj2f.1 he.symm]
    simpa using hj2f.2
  obtain ⟨hc, hcnt, hst⟩ :=
    processPass_invariants (pendingIds jobs) runs jobs false hids hpnd h3 hnoproc
  unfold passStates passStarted
  refine ⟨hc, ?_, hst⟩
  intro s hs
  rcases List.mem_cons.mp hs with rfl | hs
  · rw [processingCount_eq_zero _ hnoproc]
    omega
  · exact hcnt s hs

/-- Witness for C5 (amended) at a concrete two-job queue with one success and
one failure. -/
theorem c5_amended_queue_invariants_witness :
    chainStepB stepOKB (passStates jobsCancelPair runsCancelPair) = true
    ∧ (∀ s ∈ passStates jobsCancelPair runsCancelPair, processingCount s ≤ 1)
    ∧ (∃ k, passStarted jobsCancelPair runsCancelPair
        = (pendingIds jobsCancelPair).take k) :=
  c5_amended_queue_invariants jobsCancelPair runsCancelPair (by decide) (by decide)

/-! ## Claim C1 — cancellation during a batch -/

/-- The operation snapshot returned by the successful submission. -/
def opStarted : Operation := ⟨some "op1", false, none, none, none⟩

/-- The completed operation snapshot carrying a video locator. -/
def opDone : Operation :=
  ⟨some "op1", true, none, some ⟨none, some [⟨some ⟨some "https://dl/video"⟩⟩]⟩, none⟩

/-- The driver environment of the C1 failing input: submission succeeds at
once, the first poll reports the operation done, and the abort signal fires
at logical time 5 — exactly while the download fetch is in flight. -/
def envAbortAtDownload : Env :=
  ⟨some 5, fun _ => .success opStarted, [.success opDone],
    .ok ⟨"https://dl/video", []⟩, ⟨true, "OK", 7⟩, none⟩

/-- The driver inputs of the C1 failing input: AI-Studio mode with an
explicit key. -/
def inpDirectKey : GenInput := ⟨⟨"p", "720p", "9:16"⟩, some "KEY", none⟩

/-- The three-job pending batch of the C1 failing input. -/
def jobsBatch3 : List VideoJob :=
  [⟨"a", 0, .pending, none, none, none, "t0"⟩,
   ⟨"b", 1, .pending, none, none, none, "t1"⟩,
   ⟨"c", 2, .pending, none, none, none, "t2"⟩]

/-- The queue-level outcome of job "a": the wrapped download-abort error the
driver produces (first conjunct of the C1 theorem), with the signal aborted
afterwards. -/
def runsAbortAtDownload : List JobRun :=
  [⟨[], .error (.error "Video download error: Aborted"), true⟩]

/-- Claim C1 fails on the code at this input (code bug): a cancellation
raised at the download suspension point is caught by the download phase's
try/catch and rethrown as `Error("Video download error: Aborted")`
(geminiService.ts line 289).  That error matches neither `name ===
'AbortError'` nor `message === 'Aborted'` in the queue processor's
cancellation test (part_003 line 107), so the current job is failed with the
wrapped message instead of "Cancelled", and the two still-pending jobs stay
`Pending` instead of failing with "Stopped by user" — although no further
submission happens in the pass (the loop-top abort check breaks).  The first
conjunct evaluates the driver at the failing input; the second evaluates the
queue pass on the resulting outcome. -/
theorem c1_cancel_during_download_not_propagated :
    generateVideoM inpDirectKey envAbortAtDownload
      = .done (.error (.error "Video download error: Aborted"))
        ⟨1, 1, [10000, 10000], [⟨"https://dl/video?key=KEY", none, true⟩]⟩
    ∧ finalState jobsBatch3 runsAbortAtDownload =
      [⟨"a", 0, .failed, some "Starting...", none,
          some "Video download error: Aborted", "t0"⟩,
       ⟨"b", 1, .pending, none, none, none, "t1"⟩,
       ⟨"c", 2, .pending, none, none, none, "t2"⟩] := by
  refine ⟨by decide, by decide⟩

end VeoBatch
